import Mathlib

/-!
Verification of the announcements router of a school management system
(`src/backend/routers/announcements.py`).

The router exposes five operations over a document store holding one
collection of announcement records and one collection of teacher records:

* `get_active_announcements`  (GET  /announcements/active)
* `get_all_announcements`     (GET  /announcements/all)
* `create_announcement`       (POST /announcements/create)
* `update_announcement`       (PUT  /announcements/update/:id)
* `delete_announcement`       (DELETE /announcements/delete/:id)

The embedding below is a direct functional translation.  The document
store is a pair of lists (`DB`); every handler takes the store and
returns the (possibly updated) store together with an `Except` value,
an `HTTPException` being modelled as the `Except.error` case.  Date
strings are compared as Python compares `str` values (code-point
lexicographic order, `strLe` below), and `datetime.fromisoformat` is
kept abstract as a parameter `parse : String → Option Int` (a parse
failure, i.e. `ValueError`, is `none`; successfully parsed date-times
are integers so that the order on parsed values is total, as it is on
`datetime` objects with a common zone).  `datetime.utcnow().isoformat()`
and the ObjectId generated by `insert_one` are inputs `now` and `newId`.
-/

deriving instance DecidableEq for Except

namespace Announcements

/-- Code-point lexicographic order on lists of characters: the order
Python uses to compare `str` values (and MongoDB to compare BSON
strings in `"$gte"` filters). -/
def charListLe : List Char → List Char → Bool
  | [], _ => true
  | _ :: _, [] => false
  | a :: as, b :: bs =>
    if a.toNat < b.toNat then true
    else if b.toNat < a.toNat then false
    else charListLe as bs

/-- Python `s <= t` on strings. -/
def strLe (a b : String) : Bool := charListLe a.data b.data

/-- Stable insertion into a list whose order is described by the
boolean relation `le` (`le a b` = "a may come before b"). -/
def insertLe {α : Type} (le : α → α → Bool) (a : α) : List α → List α
  | [] => [a]
  | b :: l => if le a b then a :: b :: l else b :: insertLe le a l

/-- Stable insertion sort by `le`; with ties, elements keep their
original relative order, exactly as the stable Python list sort. -/
def sortLe {α : Type} (le : α → α → Bool) : List α → List α
  | [] => []
  | a :: l => insertLe le a (sortLe le l)

/-- An announcement document as built by `create_announcement`.
`aid` is the `_id` assigned by the store (handlers receive and compare
it in its 24-character hex string form).  `start_date` is `None`-able;
`created_at` is optional because the sort key in both listing handlers
is `x.get("created_at", "")`, which tolerates documents lacking the
field. -/
structure Announcement where
  aid : String
  message : String
  start_date : Option String
  expiration_date : String
  created_by : String
  created_at : Option String
deriving DecidableEq

/-- The `HTTPException`s raised by the router: 401, 400 (with its
`detail` text) and 404. -/
inductive ApiError where
  | unauthorized : ApiError
  | invalidInput : String → ApiError
  | notFound : ApiError
deriving DecidableEq

/-- The document store: the announcements collection and the teacher
collection (only teacher `_id`s matter to this router). -/
structure DB where
  announcements : List Announcement
  teachers : List String
deriving DecidableEq

/-- Request body of POST /announcements/create (`AnnouncementCreate`). -/
structure AnnouncementCreate where
  message : String
  start_date : Option String
  expiration_date : String
  created_by : String
deriving DecidableEq

/-- Request body of PUT /announcements/update (`AnnouncementUpdate`):
every field optional. -/
structure AnnouncementUpdate where
  message : Option String
  start_date : Option String
  expiration_date : Option String
deriving DecidableEq

/-- Embedding of the replace call the handlers apply before parsing,
which turns every occurrence of the character `Z` into `+00:00` (the
pattern is a single character, so the general substring replace
degenerates to this per-character map). -/
def replaceZ (s : String) : String :=
  String.mk (s.data.flatMap (fun c => if c = 'Z' then "+00:00".data else [c]))

/-- Embedding of `datetime.fromisoformat` applied to `replaceZ s`,
with the parser abstract: `none` models the `ValueError` raised on an
unparseable string. -/
def parseDate (parse : String → Option Int) (s : String) : Option Int :=
  parse (replaceZ s)

/-- Validity of a string as a BSON ObjectId, as checked by the
`ObjectId(...)` constructor of the bson library: exactly 24 hex
characters; anything else raises, which the handlers turn into a
400 "Invalid announcement ID". -/
def isHexChar (c : Char) : Bool :=
  (48 ≤ c.toNat && c.toNat ≤ 57) || (97 ≤ c.toNat && c.toNat ≤ 102) ||
    (65 ≤ c.toNat && c.toNat ≤ 70)

def isValidObjectId (s : String) : Bool :=
  s.data.length == 24 && s.data.all isHexChar

/-- The sort key of both listing handlers: `x.get("created_at", "")`. -/
def keyOf (a : Announcement) : String := a.created_at.getD ""

/-- Embedding of the reverse in-place sort on the `keyOf` key used by
both listing handlers: stable sort, newest (largest key) first. -/
def sortByCreatedAt (l : List Announcement) : List Announcement :=
  sortLe (fun x y => strLe (keyOf y) (keyOf x)) l

/-- GET /announcements/active.  `now` is
`datetime.utcnow().isoformat()`.  The store query keeps documents with
`expiration_date >= now` (BSON string comparison); the subsequent loop
keeps those whose `start_date` is absent (`None`) or `<= now`; the
result is sorted by `created_at` descending. -/
def get_active_announcements (now : String) (db : DB) : List Announcement :=
  let announcements := db.announcements.filter (fun a => strLe now a.expiration_date)
  let active := announcements.filter (fun a =>
    match a.start_date with
    | none => true
    | some s => strLe s now)
  sortByCreatedAt active

/-- GET /announcements/all: 401 unless `username` is the `_id` of an
existing teacher, otherwise every announcement, sorted by `created_at`
descending. -/
def get_all_announcements (username : String) (db : DB) :
    Except ApiError (List Announcement) :=
  if db.teachers.contains username then
    Except.ok (sortByCreatedAt db.announcements)
  else
    Except.error ApiError.unauthorized

/-- The document inserted by a successful create: the request fields
plus `created_at = now`; `newId` is the store-generated `_id`. -/
def announcementDoc (now newId : String) (a : AnnouncementCreate) : Announcement :=
  { aid := newId
    message := a.message
    start_date := a.start_date
    expiration_date := a.expiration_date
    created_by := a.created_by
    created_at := some now }

/-- Embedding of `insert_one` followed by returning the document:
append to the collection, hand the document back. -/
def insertDoc (doc : Announcement) (db : DB) : DB × Except ApiError Announcement :=
  ({ db with announcements := db.announcements ++ [doc] }, Except.ok doc)

/-- POST /announcements/create.  Mirrors the handler: 401 unless
`created_by` is an existing teacher; parse `expiration_date` (failure
is a 400 "Invalid date format"); then — `if announcement.start_date:`
being Python truthiness, so both `None` and the empty string skip the
block — parse `start_date` and require it strictly before
`expiration_date`; on success append the document and return it. -/
def create_announcement (parse : String → Option Int) (now newId : String)
    (announcement : AnnouncementCreate) (db : DB) :
    DB × Except ApiError Announcement :=
  if db.teachers.contains announcement.created_by then
    match parseDate parse announcement.expiration_date with
    | none => (db, Except.error (ApiError.invalidInput "Invalid date format"))
    | some expiration_datetime =>
      match announcement.start_date with
      | some s =>
        if s = "" then
          -- falsy start_date: validation block skipped entirely
          insertDoc (announcementDoc now newId announcement) db
        else
          match parseDate parse s with
          | none => (db, Except.error (ApiError.invalidInput "Invalid date format"))
          | some start_datetime =>
            if expiration_datetime ≤ start_datetime then
              (db, Except.error
                (ApiError.invalidInput "Start date must be before expiration date"))
            else
              insertDoc (announcementDoc now newId announcement) db
      | none => insertDoc (announcementDoc now newId announcement) db
  else
    (db, Except.error ApiError.unauthorized)

/-- Embedding of the set-fields document built by the update handler
and applied by `update_one`: a field is written exactly when the
corresponding request field was not `None`. -/
def mergeUpdate (u : AnnouncementUpdate) (existing : Announcement) : Announcement :=
  { existing with
    message := u.message.getD existing.message
    start_date :=
      match u.start_date with
      | some s => some s
      | none => existing.start_date
    expiration_date := u.expiration_date.getD existing.expiration_date }

/-- Embedding of `update_one` on an id filter: rewrite the first
document whose stored id matches, leave everything else in place. -/
def updateFirst (aid : String) (f : Announcement → Announcement) :
    List Announcement → List Announcement
  | [] => []
  | a :: rest =>
    if a.aid = aid then f a :: rest else a :: updateFirst aid f rest

/-- Embedding of `update_one` followed by the re-read of the updated
document: in this sequential model the re-read returns exactly the
merged first match (`find?_updateFirst` below). -/
def applyUpdate (announcement_id : String) (u : AnnouncementUpdate)
    (existing : Announcement) (db : DB) : DB × Except ApiError Announcement :=
  ({ db with announcements :=
      updateFirst announcement_id (mergeUpdate u) db.announcements },
   Except.ok (mergeUpdate u existing))

/-- PUT /announcements/update/:id.  Mirrors the handler: 401 unless
`username` is an existing teacher; 400 "Invalid announcement ID" when
`ObjectId(announcement_id)` raises (checked before any announcement
lookup); 404 when no document matches; cross-field date validation only
when the update document carries both `start_date` and
`expiration_date` (both request fields not `None`), parsing
`start_date` first as the handler does; on success the store is
rewritten and the handler re-reads and returns the updated document,
which in this sequential model is exactly the merged record
(`find?_updateFirst` below). -/
def update_announcement (parse : String → Option Int) (announcement_id : String)
    (announcement : AnnouncementUpdate) (username : String) (db : DB) :
    DB × Except ApiError Announcement :=
  if db.teachers.contains username then
    if isValidObjectId announcement_id then
      match db.announcements.find? (fun a => a.aid = announcement_id) with
      | none => (db, Except.error ApiError.notFound)
      | some existing =>
        match announcement.start_date, announcement.expiration_date with
        | some s, some e =>
          match parseDate parse s with
          | none => (db, Except.error (ApiError.invalidInput "Invalid date format"))
          | some start_datetime =>
            match parseDate parse e with
            | none => (db, Except.error (ApiError.invalidInput "Invalid date format"))
            | some expiration_datetime =>
              if expiration_datetime ≤ start_datetime then
                (db, Except.error
                  (ApiError.invalidInput "Start date must be before expiration date"))
              else
                applyUpdate announcement_id announcement existing db
        | _, _ => applyUpdate announcement_id announcement existing db
    else
      (db, Except.error (ApiError.invalidInput "Invalid announcement ID"))
  else
    (db, Except.error ApiError.unauthorized)

/-- Embedding of `delete_one` on an id filter: remove the first
matching document; `none` models a deleted count of zero. -/
def deleteFirst (aid : String) : List Announcement → Option (List Announcement)
  | [] => none
  | a :: rest =>
    if a.aid = aid then some rest else (deleteFirst aid rest).map (a :: ·)

/-- DELETE /announcements/delete/:id: 401 unless `username` is an
existing teacher; 400 when the id is malformed; 404 when
`deleted_count == 0`; otherwise the record is gone and a confirmation
message is returned. -/
def delete_announcement (announcement_id username : String) (db : DB) :
    DB × Except ApiError String :=
  if db.teachers.contains username then
    if isValidObjectId announcement_id then
      match deleteFirst announcement_id db.announcements with
      | none => (db, Except.error ApiError.notFound)
      | some rest =>
        ({ db with announcements := rest },
         Except.ok "Announcement deleted successfully")
    else
      (db, Except.error (ApiError.invalidInput "Invalid announcement ID"))
  else
    (db, Except.error ApiError.unauthorized)

/-! ### Concrete fixtures used by witnesses and counterexamples below -/

/-- A tiny concrete instantiation of the abstract ISO parser, enough to
exercise every branch: `"1"`, `"2"`, `"3"` parse (in increasing order),
everything else — in particular the empty string, as with
`datetime.fromisoformat("")` — raises. -/
def toyParse (s : String) : Option Int :=
  if s = "1" then some 1 else if s = "2" then some 2
  else if s = "3" then some 3 else none

def oidA : String := "aaaaaaaaaaaaaaaaaaaaaaaa"

def oidB : String := "bbbbbbbbbbbbbbbbbbbbbbbb"

def db0 : DB := { announcements := [], teachers := ["t1"] }

def reqNoStart : AnnouncementCreate :=
  { message := "m", start_date := none, expiration_date := "2", created_by := "t1" }

def reqEmptyStart : AnnouncementCreate :=
  { message := "m", start_date := some "", expiration_date := "2", created_by := "t1" }

def ann1 : Announcement :=
  { aid := oidA, message := "m1", start_date := none, expiration_date := "2099",
    created_by := "t1", created_at := some "2020" }

def ann2 : Announcement :=
  { aid := oidB, message := "m2", start_date := none, expiration_date := "2098",
    created_by := "t1", created_at := some "2021" }

def db1 : DB := { announcements := [ann1], teachers := ["t1"] }

def db2 : DB := { announcements := [ann1, ann2], teachers := ["t1"] }

def updNone : AnnouncementUpdate :=
  { message := none, start_date := none, expiration_date := none }

def updMsg : AnnouncementUpdate :=
  { message := some "m2", start_date := none, expiration_date := none }

def oidC : String := "cccccccccccccccccccccccc"

/-! ### Order infrastructure: the comparator and the stable sort -/

theorem charListLe_nil (b : List Char) : charListLe [] b = true := by
  cases b <;> rfl

theorem charListLe_total (a : List Char) :
    ∀ b, charListLe a b = true ∨ charListLe b a = true := by
  induction a with
  | nil => intro b; left; exact charListLe_nil b
  | cons c as ih =>
    intro b
    cases b with
    | nil => right; exact charListLe_nil _
    | cons d bs =>
      rcases Nat.lt_trichotomy c.toNat d.toNat with h | h | h
      · left; simp [charListLe, h]
      · have h1 : ¬ c.toNat < d.toNat := by omega
        have h2 : ¬ d.toNat < c.toNat := by omega
        rcases ih bs with h3 | h3
        · left; simp [charListLe, h1, h2, h3]
        · right; simp [charListLe, h1, h2, h3]
      · right; simp [charListLe, h]

theorem charListLe_trans (a : List Char) :
    ∀ b c, charListLe a b = true → charListLe b c = true →
      charListLe a c = true := by
  induction a with
  | nil => intro b c _ _; exact charListLe_nil c
  | cons x as ih =>
    intro b c hab hbc
    cases b with
    | nil => simp [charListLe] at hab
    | cons y bs =>
      cases c with
      | nil => simp [charListLe] at hbc
      | cons z cs =>
        simp only [charListLe] at hab hbc ⊢
        rcases Nat.lt_trichotomy x.toNat y.toNat with h1 | h1 | h1 <;>
          rcases Nat.lt_trichotomy y.toNat z.toNat with h2 | h2 | h2
        · simp [show x.toNat < z.toNat by omega]
        · simp [show x.toNat < z.toNat by omega]
        · simp only [if_neg (show ¬ y.toNat < z.toNat by omega),
            if_pos (show z.toNat < y.toNat by omega)] at hbc
          exact absurd hbc (by simp)
        · simp [show x.toNat < z.toNat by omega]
        · have e1 : ¬ x.toNat < z.toNat := by omega
          have e2 : ¬ z.toNat < x.toNat := by omega
          simp only [if_neg (show ¬ x.toNat < y.toNat by omega),
            if_neg (show ¬ y.toNat < x.toNat by omega)] at hab
          simp only [if_neg (show ¬ y.toNat < z.toNat by omega),
            if_neg (show ¬ z.toNat < y.toNat by omega)] at hbc
          simp only [if_neg e1, if_neg e2]
          exact ih bs cs hab hbc
        · simp only [if_neg (show ¬ y.toNat < z.toNat by omega),
            if_pos (show z.toNat < y.toNat by omega)] at hbc
          exact absurd hbc (by simp)
        · simp only [if_neg (show ¬ x.toNat < y.toNat by omega),
            if_pos (show y.toNat < x.toNat by omega)] at hab
          exact absurd hab (by simp)
        · simp only [if_neg (show ¬ x.toNat < y.toNat by omega),
            if_pos (show y.toNat < x.toNat by omega)] at hab
          exact absurd hab (by simp)
        · simp only [if_neg (show ¬ x.toNat < y.toNat by omega),
            if_pos (show y.toNat < x.toNat by omega)] at hab
          exact absurd hab (by simp)

theorem strLe_total (a b : String) : strLe a b = true ∨ strLe b a = true :=
  charListLe_total a.data b.data

theorem strLe_trans (a b c : String) (h1 : strLe a b = true)
    (h2 : strLe b c = true) : strLe a c = true :=
  charListLe_trans a.data b.data c.data h1 h2

theorem mem_insertLe {α : Type} (le : α → α → Bool) (a x : α) (l : List α) :
    x ∈ insertLe le a l ↔ x = a ∨ x ∈ l := by
  induction l with
  | nil => simp [insertLe]
  | cons b l ih =>
    simp only [insertLe]
    by_cases h : le a b = true
    · rw [if_pos h]
      simp only [List.mem_cons]
    · rw [if_neg h]
      simp only [List.mem_cons, ih]
      tauto

theorem mem_sortLe {α : Type} (le : α → α → Bool) (x : α) (l : List α) :
    x ∈ sortLe le l ↔ x ∈ l := by
  induction l with
  | nil => simp [sortLe]
  | cons a l ih =>
    simp only [sortLe]
    rw [mem_insertLe]
    simp [ih, List.mem_cons]

theorem pairwise_insertLe {α : Type} (le : α → α → Bool)
    (total : ∀ a b, le a b = true ∨ le b a = true)
    (htrans : ∀ a b c, le a b = true → le b c = true → le a c = true)
    (a : α) (l : List α) (h : l.Pairwise (fun x y => le x y = true)) :
    (insertLe le a l).Pairwise (fun x y => le x y = true) := by
  induction l with
  | nil => simp [insertLe]
  | cons b l ih =>
    rcases List.pairwise_cons.mp h with ⟨hb, hl⟩
    simp only [insertLe]
    by_cases hab : le a b = true
    · rw [if_pos hab]
      refine List.pairwise_cons.mpr ⟨?_, h⟩
      intro x hx
      rcases List.mem_cons.mp hx with rfl | hx
      · exact hab
      · exact htrans a b x hab (hb x hx)
    · rw [if_neg hab]
      refine List.pairwise_cons.mpr ⟨?_, ih hl⟩
      intro x hx
      rcases (mem_insertLe le a x l).mp hx with heq | hx
      · rw [heq]
        rcases total a b with h1 | h1
        · exact absurd h1 hab
        · exact h1
      · exact hb x hx

/-! ### Store-operation lemmas -/

theorem mergeUpdate_aid (u : AnnouncementUpdate) (e : Announcement) :
    (mergeUpdate u e).aid = e.aid := rfl

theorem mergeUpdate_created_by (u : AnnouncementUpdate) (e : Announcement) :
    (mergeUpdate u e).created_by = e.created_by := rfl

theorem mergeUpdate_created_at (u : AnnouncementUpdate) (e : Announcement) :
    (mergeUpdate u e).created_at = e.created_at := rfl

theorem length_updateFirst (aid : String) (f : Announcement → Announcement)
    (l : List Announcement) : (updateFirst aid f l).length = l.length := by
  induction l with
  | nil => rfl
  | cons a rest ih =>
    simp only [updateFirst]
    by_cases h : a.aid = aid
    · rw [if_pos h]
      simp
    · rw [if_neg h]
      simp [ih]

theorem mem_updateFirst_of_ne (aid : String) (f : Announcement → Announcement)
    (l : List Announcement) (b : Announcement) (hb : b ∈ l) (hne : b.aid ≠ aid) :
    b ∈ updateFirst aid f l := by
  induction l with
  | nil => cases hb
  | cons a rest ih =>
    simp only [updateFirst]
    rcases List.mem_cons.mp hb with heq | hmem
    · have ha : ¬ a.aid = aid := heq ▸ hne
      rw [if_neg ha]
      exact heq ▸ List.mem_cons_self a _
    · by_cases h : a.aid = aid
      · rw [if_pos h]
        exact List.mem_cons_of_mem _ hmem
      · rw [if_neg h]
        exact List.mem_cons_of_mem _ (ih hmem)

theorem find?_updateFirst (aid : String) (u : AnnouncementUpdate)
    (l : List Announcement) (existing : Announcement)
    (hf : l.find? (fun a => a.aid = aid) = some existing) :
    (updateFirst aid (mergeUpdate u) l).find? (fun a => a.aid = aid) =
      some (mergeUpdate u existing) := by
  induction l with
  | nil => cases hf
  | cons a rest ih =>
    simp only [updateFirst]
    by_cases h : a.aid = aid
    · rw [if_pos h]
      rw [List.find?_cons_of_pos _ (by simp [h])] at hf
      rw [List.find?_cons_of_pos _ (by simp [mergeUpdate_aid, h])]
      cases hf
      rfl
    · rw [if_neg h]
      rw [List.find?_cons_of_neg _ (by simp [h])] at hf
      rw [List.find?_cons_of_neg _ (by simp [h])]
      exact ih hf

theorem deleteFirst_eq_none (aid : String) (l : List Announcement) :
    deleteFirst aid l = none ↔ ∀ a ∈ l, a.aid ≠ aid := by
  induction l with
  | nil => simp [deleteFirst]
  | cons a rest ih =>
    simp only [deleteFirst]
    by_cases h : a.aid = aid
    · rw [if_pos h]
      simp [h]
    · rw [if_neg h]
      constructor
      · intro hmap
        have hr : deleteFirst aid rest = none := by
          cases he : deleteFirst aid rest with
          | none => rfl
          | some r => rw [he] at hmap; cases hmap
        intro b hb
        rcases List.mem_cons.mp hb with heq | hmem
        · exact heq ▸ h
        · exact ih.mp hr b hmem
      · intro hall
        have hr : deleteFirst aid rest = none :=
          ih.mpr (fun b hb => hall b (List.mem_cons_of_mem _ hb))
        rw [hr]
        rfl

theorem deleteFirst_append (aid : String) (l1 : List Announcement)
    (x : Announcement) (l2 : List Announcement)
    (h1 : ∀ b ∈ l1, b.aid ≠ aid) (hx : x.aid = aid) :
    deleteFirst aid (l1 ++ x :: l2) = some (l1 ++ l2) := by
  induction l1 with
  | nil =>
    simp only [List.nil_append, deleteFirst]
    rw [if_pos hx]
  | cons a rest ih =>
    have ha : ¬ a.aid = aid := h1 a (List.mem_cons_self a _)
    simp only [List.cons_append, deleteFirst]
    rw [if_neg ha, show rest.append (x :: l2) = rest ++ x :: l2 from rfl,
      ih (fun b hb => h1 b (List.mem_cons_of_mem _ hb))]
    rfl

theorem pairwise_sortLe {α : Type} (le : α → α → Bool)
    (total : ∀ a b, le a b = true ∨ le b a = true)
    (htrans : ∀ a b c, le a b = true → le b c = true → le a c = true)
    (l : List α) : (sortLe le l).Pairwise (fun x y => le x y = true) := by
  induction l with
  | nil => simp [sortLe]
  | cons a l ih => exact pairwise_insertLe le total htrans a (sortLe le l) ih

/-! ### Claim theorems -/

/-- C1: `list_active` returns exactly those announcements whose
`expiration_date` is ≥ the current UTC time (inclusive) and whose
`start_date` is absent or ≤ the current UTC time; every announcement
with `expiration_date` strictly before now, or `start_date` strictly
after now, is absent, and the result is empty when nothing matches.
(Dates are compared as the handler compares them: as strings, `strLe`.) -/
theorem active_list_membership (now : String) (db : DB) :
    (∀ a : Announcement,
      a ∈ get_active_announcements now db ↔
        a ∈ db.announcements ∧ strLe now a.expiration_date = true ∧
          (a.start_date = none ∨ ∃ s, a.start_date = some s ∧ strLe s now = true)) ∧
    ((∀ a ∈ db.announcements,
        ¬(strLe now a.expiration_date = true ∧
          (a.start_date = none ∨ ∃ s, a.start_date = some s ∧ strLe s now = true))) →
      get_active_announcements now db = []) := by
  have hiff : ∀ a : Announcement,
      a ∈ get_active_announcements now db ↔
        a ∈ db.announcements ∧ strLe now a.expiration_date = true ∧
          (a.start_date = none ∨ ∃ s, a.start_date = some s ∧ strLe s now = true) := by
    intro a
    unfold get_active_announcements sortByCreatedAt
    rw [mem_sortLe, List.mem_filter, List.mem_filter]
    cases hs : a.start_date with
    | none =>
      constructor
      · rintro ⟨⟨h1, h2⟩, _⟩
        exact ⟨h1, h2, Or.inl rfl⟩
      · rintro ⟨h1, h2, _⟩
        exact ⟨⟨h1, h2⟩, rfl⟩
    | some s =>
      constructor
      · rintro ⟨⟨h1, h2⟩, h3⟩
        exact ⟨h1, h2, Or.inr ⟨s, rfl, h3⟩⟩
      · rintro ⟨h1, h2, h3 | ⟨t, ht, hle⟩⟩
        · cases h3
        · injection ht with ht'
          subst ht'
          exact ⟨⟨h1, h2⟩, hle⟩
  refine ⟨hiff, ?_⟩
  intro hnone
  rw [List.eq_nil_iff_forall_not_mem]
  intro a ha
  rcases (hiff a).mp ha with ⟨hmem, hrest⟩
  exact hnone a hmem hrest

/-- Witness for C1: a matching record is returned; with only an expired
record in the store, the result is empty. -/
theorem active_list_membership_witness :
    ann1 ∈ get_active_announcements "2026" db2 ∧
    get_active_announcements "2100" db1 = [] := by
  constructor
  · exact ((active_list_membership "2026" db2).1 ann1).mpr
      ⟨by decide, by decide, Or.inl rfl⟩
  · refine (active_list_membership "2100" db1).2 ?_
    intro a ha hcontra
    have ha' : a = ann1 := by simpa [db1] using ha
    rw [ha'] at hcontra
    exact absurd hcontra.1 (by decide)

/-- C6: the results of `list_active` and `list_all` are sorted
descending by the `created_at` string: any result `x` before `y` has
`x.created_at ≥ y.created_at` under string comparison, a record lacking
`created_at` being keyed as the empty string. -/
theorem listings_sorted_desc (now username : String) (db : DB)
    (l : List Announcement) :
    (get_active_announcements now db).Pairwise
      (fun x y => strLe (y.created_at.getD "") (x.created_at.getD "") = true) ∧
    (get_all_announcements username db = Except.ok l →
      l.Pairwise
        (fun x y => strLe (y.created_at.getD "") (x.created_at.getD "") = true)) := by
  have hsorted : ∀ m : List Announcement, (sortByCreatedAt m).Pairwise
      (fun x y => strLe (y.created_at.getD "") (x.created_at.getD "") = true) := by
    intro m
    exact pairwise_sortLe (fun x y => strLe (keyOf y) (keyOf x))
      (fun a b => strLe_total (keyOf b) (keyOf a))
      (fun a b c h1 h2 => strLe_trans (keyOf c) (keyOf b) (keyOf a) h2 h1) m
  constructor
  · exact hsorted ((db.announcements.filter
      (fun a => strLe now a.expiration_date)).filter (fun a =>
        match a.start_date with
        | none => true
        | some s => strLe s now))
  · intro hok
    unfold get_all_announcements at hok
    by_cases ht : db.teachers.contains username
    · rw [if_pos ht] at hok
      injection hok with h
      rw [← h]
      exact hsorted _
    · rw [if_neg ht] at hok
      cases hok

/-- Witness for C6: both listings sorted on a two-record store whose
records were created in 2020 and 2021. -/
theorem listings_sorted_desc_witness :
    (get_active_announcements "2026" db2).Pairwise
      (fun x y => strLe (y.created_at.getD "") (x.created_at.getD "") = true) ∧
    ([ann2, ann1] : List Announcement).Pairwise
      (fun x y => strLe (y.created_at.getD "") (x.created_at.getD "") = true) :=
  ⟨(listings_sorted_desc "2026" "t1" db2 [ann2, ann1]).1,
   (listings_sorted_desc "2026" "t1" db2 [ann2, ann1]).2 (by decide)⟩

/-- C9: each of `list_all`, `create`, `update` and `delete` fails with
Unauthorized when the caller identity does not match an existing
teacher, leaves the collection unchanged, and does so regardless of
every other input (all other arguments are arbitrary here, so the
check precedes every other defect). -/
theorem unauthorized_callers (parse : String → Option Int)
    (now newId username id : String) (db : DB) (a : AnnouncementCreate)
    (u : AnnouncementUpdate)
    (h : db.teachers.contains username = false)
    (ha : a.created_by = username) :
    get_all_announcements username db = Except.error ApiError.unauthorized ∧
    create_announcement parse now newId a db =
      (db, Except.error ApiError.unauthorized) ∧
    update_announcement parse id u username db =
      (db, Except.error ApiError.unauthorized) ∧
    delete_announcement id username db =
      (db, Except.error ApiError.unauthorized) := by
  have hne : ¬ (db.teachers.contains username = true) := by
    rw [h]
    exact Bool.false_ne_true
  refine ⟨?_, ?_, ?_, ?_⟩
  · unfold get_all_announcements
    rw [if_neg hne]
  · unfold create_announcement
    rw [ha, if_neg hne]
  · unfold update_announcement
    rw [if_neg hne]
  · unfold delete_announcement
    rw [if_neg hne]

/-- Witness for C9: the caller `"ghost"` is no teacher of `db1`; all
four operations reject with 401 and leave the store as it was. -/
theorem unauthorized_callers_witness :
    get_all_announcements "ghost" db1 = Except.error ApiError.unauthorized ∧
    create_announcement toyParse "now0" oidB
      { reqNoStart with created_by := "ghost" } db1 =
      (db1, Except.error ApiError.unauthorized) ∧
    update_announcement toyParse oidA updNone "ghost" db1 =
      (db1, Except.error ApiError.unauthorized) ∧
    delete_announcement oidA "ghost" db1 =
      (db1, Except.error ApiError.unauthorized) :=
  unauthorized_callers toyParse "now0" oidB "ghost" oidA db1
    { reqNoStart with created_by := "ghost" } updNone (by decide) (by decide)

/-- C7: a create by an existing teacher whose date validation passes
assigns `created_at = now`, appends exactly one new record, and returns
the full record with the store-generated id; an omitted `start_date` is
stored and returned as null. -/
theorem create_success (parse : String → Option Int) (now newId : String)
    (a : AnnouncementCreate) (db : DB)
    (ht : db.teachers.contains a.created_by = true)
    (he : ∃ ed, parseDate parse a.expiration_date = some ed)
    (hs : a.start_date = none ∨ a.start_date = some "" ∨
          ∃ s sd ed, a.start_date = some s ∧ parseDate parse s = some sd ∧
            parseDate parse a.expiration_date = some ed ∧ sd < ed) :
    create_announcement parse now newId a db =
      ({ db with announcements := db.announcements ++ [announcementDoc now newId a] },
       Except.ok (announcementDoc now newId a)) ∧
    (announcementDoc now newId a).created_at = some now ∧
    (announcementDoc now newId a).aid = newId ∧
    (a.start_date = none → (announcementDoc now newId a).start_date = none) := by
  obtain ⟨ed, hed⟩ := he
  refine ⟨?_, rfl, rfl, fun h0 => by simp [announcementDoc, h0]⟩
  unfold create_announcement
  rw [if_pos ht]
  rcases hs with h0 | h0 | ⟨s, sd, ed', h1, h2, h3, h4⟩
  · simp only [hed, h0]
    rfl
  · simp only [hed, h0]
    rfl
  · rw [hed] at h3
    injection h3 with h3'
    subst h3'
    by_cases hse : s = ""
    · subst hse
      simp only [hed, h1]
      rfl
    · simp only [hed, h1]
      rw [if_neg hse]
      simp only [h2]
      rw [if_neg (not_le.mpr h4)]
      rfl

/-- Witness for C7: teacher `"t1"` creates a record with parseable
expiration `"2"` and no start date. -/
theorem create_success_witness :
    create_announcement toyParse "now0" oidB reqNoStart db1 =
      ({ db1 with announcements :=
          db1.announcements ++ [announcementDoc "now0" oidB reqNoStart] },
       Except.ok (announcementDoc "now0" oidB reqNoStart)) ∧
    (announcementDoc "now0" oidB reqNoStart).created_at = some "now0" ∧
    (announcementDoc "now0" oidB reqNoStart).aid = oidB ∧
    (reqNoStart.start_date = none →
      (announcementDoc "now0" oidB reqNoStart).start_date = none) :=
  create_success toyParse "now0" oidB reqNoStart db1 (by decide)
    ⟨2, by decide⟩ (Or.inl (by decide))

/-- C10: a create by an existing teacher with a parseable
`expiration_date` and `start_date` equal to the empty string succeeds
for EVERY parser — in particular one on which the empty string fails to
parse — because the falsy empty string bypasses both the parse check
and the start-before-expiration check; the record is persisted and
returned with `start_date = ""`. -/
theorem create_empty_start_bypass (parse : String → Option Int)
    (now newId : String) (a : AnnouncementCreate) (db : DB)
    (ht : db.teachers.contains a.created_by = true)
    (hs0 : a.start_date = some "")
    (he : ∃ v, parseDate parse a.expiration_date = some v) :
    create_announcement parse now newId a db =
      ({ db with announcements := db.announcements ++ [announcementDoc now newId a] },
       Except.ok (announcementDoc now newId a)) ∧
    (announcementDoc now newId a).start_date = some "" := by
  obtain ⟨v, hv⟩ := he
  refine ⟨?_, by simp [announcementDoc, hs0]⟩
  unfold create_announcement
  rw [if_pos ht]
  simp only [hv, hs0]
  rfl

/-- Witness for C10: `toyParse` rejects the empty string, yet the
create with `start_date = ""` succeeds and stores the empty string. -/
theorem create_empty_start_bypass_witness :
    parseDate toyParse "" = none ∧
    (create_announcement toyParse "now0" oidA reqEmptyStart db0 =
      ({ db0 with announcements :=
          db0.announcements ++ [announcementDoc "now0" oidA reqEmptyStart] },
       Except.ok (announcementDoc "now0" oidA reqEmptyStart)) ∧
     (announcementDoc "now0" oidA reqEmptyStart).start_date = some "") :=
  ⟨by decide,
   create_empty_start_bypass toyParse "now0" oidA reqEmptyStart db0
     (by decide) (by decide) ⟨2, by decide⟩⟩

/-- C2 counterexample: the claim as stated fails on an empty-string
`start_date`.  Teacher `"t1"` exists, `start_date` is present
(`some ""`) and fails to parse, yet the create succeeds and inserts a
record instead of failing with InvalidInput. -/
theorem create_invalid_dates_claim_cex :
    db0.teachers.contains reqEmptyStart.created_by = true ∧
    reqEmptyStart.start_date = some "" ∧
    parseDate toyParse "" = none ∧
    create_announcement toyParse "now0" oidA reqEmptyStart db0 =
      ({ db0 with announcements := [announcementDoc "now0" oidA reqEmptyStart] },
       Except.ok (announcementDoc "now0" oidA reqEmptyStart)) := by decide

/-- C2 (amended): for a create by an existing teacher, the operation
fails with InvalidInput and inserts nothing whenever the
`expiration_date` fails to parse, or `start_date` is present and
NON-EMPTY and either fails to parse or is not strictly before the
parsed `expiration_date` (the empty string is falsy in the truthiness
test `if announcement.start_date:` and bypasses validation, see C10). -/
theorem create_invalid_dates (parse : String → Option Int)
    (now newId : String) (a : AnnouncementCreate) (db : DB)
    (ht : db.teachers.contains a.created_by = true)
    (h : parseDate parse a.expiration_date = none ∨
         (∃ s, a.start_date = some s ∧ s ≠ "" ∧ parseDate parse s = none) ∨
         (∃ s sd ed, a.start_date = some s ∧ s ≠ "" ∧ parseDate parse s = some sd ∧
            parseDate parse a.expiration_date = some ed ∧ ed ≤ sd)) :
    ∃ d, create_announcement parse now newId a db =
      (db, Except.error (ApiError.invalidInput d)) := by
  unfold create_announcement
  rw [if_pos ht]
  rcases h with h0 | ⟨s, h1, h2, h3⟩ | ⟨s, sd, ed, h1, h2, h3, h4, h5⟩
  · refine ⟨"Invalid date format", ?_⟩
    simp only [h0]
  · cases hexp : parseDate parse a.expiration_date with
    | none =>
      refine ⟨"Invalid date format", ?_⟩
      simp only [hexp]
    | some ed =>
      refine ⟨"Invalid date format", ?_⟩
      simp only [hexp, h1]
      rw [if_neg h2]
      simp only [h3]
  · refine ⟨"Start date must be before expiration date", ?_⟩
    simp only [h4, h1]
    rw [if_neg h2]
    simp only [h3]
    rw [if_pos h5]

/-- Witness for C2 (amended): unparseable `expiration_date` "x" and,
separately usable, the hypothesis package at a concrete input. -/
theorem create_invalid_dates_witness :
    ∃ d, create_announcement toyParse "now0" oidA
      { reqNoStart with expiration_date := "x" } db0 =
      (db0, Except.error (ApiError.invalidInput d)) :=
  create_invalid_dates toyParse "now0" oidA
    { reqNoStart with expiration_date := "x" } db0 (by decide)
    (Or.inl (by decide))

/-- C3: for an update by an existing teacher on an existing well-formed
id, cross-field date validation runs exactly when both `start_date` and
`expiration_date` are supplied in the call: the supplied `start_date`
must parse, the supplied `expiration_date` must parse, and the parsed
start must be strictly before the parsed expiration, else the call
fails with InvalidInput and the store is unchanged; when at most one of
the two date fields is supplied the update applies with no cross-field
validation against the stored other field (for any parser). -/
theorem update_cross_validation (parse : String → Option Int)
    (id username : String) (u : AnnouncementUpdate) (db : DB)
    (existing : Announcement)
    (ht : db.teachers.contains username = true)
    (hv : isValidObjectId id = true)
    (hf : db.announcements.find? (fun a => a.aid = id) = some existing) :
    (∀ s e, u.start_date = some s → u.expiration_date = some e →
      ((parseDate parse s = none →
         update_announcement parse id u username db =
           (db, Except.error (ApiError.invalidInput "Invalid date format"))) ∧
       (∀ sd, parseDate parse s = some sd → parseDate parse e = none →
         update_announcement parse id u username db =
           (db, Except.error (ApiError.invalidInput "Invalid date format"))) ∧
       (∀ sd ed, parseDate parse s = some sd → parseDate parse e = some ed →
         ed ≤ sd →
         update_announcement parse id u username db =
           (db, Except.error
             (ApiError.invalidInput "Start date must be before expiration date"))) ∧
       (∀ sd ed, parseDate parse s = some sd → parseDate parse e = some ed →
         sd < ed →
         update_announcement parse id u username db =
           applyUpdate id u existing db))) ∧
    ((u.start_date = none ∨ u.expiration_date = none) →
      update_announcement parse id u username db =
        applyUpdate id u existing db) := by
  constructor
  · intro s e hs he
    refine ⟨?_, ?_, ?_, ?_⟩
    · intro hps
      unfold update_announcement
      rw [if_pos ht, if_pos hv]
      simp only [hf, hs, he, hps]
    · intro sd hps hpe
      unfold update_announcement
      rw [if_pos ht, if_pos hv]
      simp only [hf, hs, he, hps, hpe]
    · intro sd ed hps hpe hle
      unfold update_announcement
      rw [if_pos ht, if_pos hv]
      simp only [hf, hs, he, hps, hpe]
      rw [if_pos hle]
    · intro sd ed hps hpe hlt
      unfold update_announcement
      rw [if_pos ht, if_pos hv]
      simp only [hf, hs, he, hps, hpe]
      rw [if_neg (not_le.mpr hlt)]
  · intro h0
    unfold update_announcement
    rw [if_pos ht, if_pos hv]
    rcases h0 with h0 | h0
    · cases hee : u.expiration_date with
      | none => simp only [hf, h0, hee]
      | some e => simp only [hf, h0, hee]
    · cases hss : u.start_date with
      | none => simp only [hf, h0, hss]
      | some s => simp only [hf, h0, hss]

/-- Witness for C3: inconsistent pair `start "2"`, `expiration "1"`
rejected with the record untouched; message-only update applied with no
date validation. -/
theorem update_cross_validation_witness :
    update_announcement toyParse oidA
      { message := none, start_date := some "2", expiration_date := some "1" }
      "t1" db1 =
      (db1, Except.error
        (ApiError.invalidInput "Start date must be before expiration date")) ∧
    update_announcement toyParse oidA updMsg "t1" db1 =
      applyUpdate oidA updMsg ann1 db1 := by
  constructor
  · exact ((update_cross_validation toyParse oidA "t1"
      { message := none, start_date := some "2", expiration_date := some "1" }
      db1 ann1 (by decide) (by decide) (by decide)).1 "2" "1" rfl rfl).2.2.1
      2 1 (by decide) (by decide) (by decide)
  · exact (update_cross_validation toyParse oidA "t1" updMsg db1 ann1
      (by decide) (by decide) (by decide)).2 (Or.inl rfl)

/-- Shape of every successful update outcome: helper for the frame
claim. -/
theorem update_success_shape (u : AnnouncementUpdate) (id : String)
    (db : DB) (existing : Announcement)
    (hf : db.announcements.find? (fun a => a.aid = id) = some existing) :
    ∃ e0, db.announcements.find? (fun a => a.aid = id) = some e0 ∧
      mergeUpdate u existing = mergeUpdate u e0 ∧
      (mergeUpdate u existing).aid = e0.aid ∧
      (mergeUpdate u existing).created_by = e0.created_by ∧
      (mergeUpdate u existing).created_at = e0.created_at ∧
      (u.message = none → (mergeUpdate u existing).message = e0.message) ∧
      (u.start_date = none →
        (mergeUpdate u existing).start_date = e0.start_date) ∧
      (u.expiration_date = none →
        (mergeUpdate u existing).expiration_date = e0.expiration_date) ∧
      (∀ m, u.message = some m → (mergeUpdate u existing).message = m) ∧
      (∀ s, u.start_date = some s →
        (mergeUpdate u existing).start_date = some s) ∧
      (∀ e, u.expiration_date = some e →
        (mergeUpdate u existing).expiration_date = e) ∧
      ({ db with announcements :=
          updateFirst id (mergeUpdate u) db.announcements }).teachers =
        db.teachers ∧
      ({ db with announcements :=
          updateFirst id (mergeUpdate u) db.announcements }).announcements =
        updateFirst id (mergeUpdate u) db.announcements ∧
      ({ db with announcements :=
          updateFirst id (mergeUpdate u) db.announcements
            }).announcements.length = db.announcements.length ∧
      (∀ b ∈ db.announcements, b.aid ≠ id →
        b ∈ ({ db with announcements :=
                updateFirst id (mergeUpdate u) db.announcements }).announcements) := by
  refine ⟨existing, hf, rfl, rfl, rfl, rfl, ?_, ?_, ?_, ?_, ?_, ?_, rfl, rfl,
    ?_, ?_⟩
  · intro hm
    simp [mergeUpdate, hm]
  · intro hm
    simp [mergeUpdate, hm]
  · intro hm
    simp [mergeUpdate, hm]
  · intro m hm
    simp [mergeUpdate, hm]
  · intro s hm
    simp [mergeUpdate, hm]
  · intro e hm
    simp [mergeUpdate, hm]
  · exact length_updateFirst id (mergeUpdate u) db.announcements
  · intro b hb hne
    exact mem_updateFirst_of_ne id (mergeUpdate u) db.announcements b hb hne

/-- C4: every successful update changes only the fields supplied in the
call; `created_by`, `created_at` and the id are never modified, a field
not supplied keeps its stored value, a supplied field takes exactly the
supplied value, the teacher collection and every non-matching record
are untouched, and the collection keeps its size. -/
theorem update_frame (parse : String → Option Int) (id username : String)
    (u : AnnouncementUpdate) (db db' : DB) (r : Announcement)
    (h : update_announcement parse id u username db = (db', Except.ok r)) :
    ∃ e0, db.announcements.find? (fun a => a.aid = id) = some e0 ∧
      r = mergeUpdate u e0 ∧
      r.aid = e0.aid ∧
      r.created_by = e0.created_by ∧
      r.created_at = e0.created_at ∧
      (u.message = none → r.message = e0.message) ∧
      (u.start_date = none → r.start_date = e0.start_date) ∧
      (u.expiration_date = none → r.expiration_date = e0.expiration_date) ∧
      (∀ m, u.message = some m → r.message = m) ∧
      (∀ s, u.start_date = some s → r.start_date = some s) ∧
      (∀ e, u.expiration_date = some e → r.expiration_date = e) ∧
      db'.teachers = db.teachers ∧
      db'.announcements = updateFirst id (mergeUpdate u) db.announcements ∧
      db'.announcements.length = db.announcements.length ∧
      (∀ b ∈ db.announcements, b.aid ≠ id → b ∈ db'.announcements) := by
  have key : ∃ existing,
      db.announcements.find? (fun a => a.aid = id) = some existing ∧
      db' = { db with announcements :=
                updateFirst id (mergeUpdate u) db.announcements } ∧
      r = mergeUpdate u existing := by
    unfold update_announcement at h
    by_cases ht : db.teachers.contains username = true
    · rw [if_pos ht] at h
      by_cases hv : isValidObjectId id = true
      · rw [if_pos hv] at h
        cases hf : db.announcements.find? (fun a => a.aid = id) with
        | none =>
          simp only [hf] at h
          injection h with h1 h2
          exact Except.noConfusion h2
        | some existing =>
          simp only [hf] at h
          refine ⟨existing, rfl, ?_⟩
          cases hsd : u.start_date with
          | none =>
            simp only [hsd] at h
            unfold applyUpdate at h
            injection h with h1 h2
            injection h2 with h2'
            exact ⟨h1.symm, h2'.symm⟩
          | some s =>
            cases hed : u.expiration_date with
            | none =>
              simp only [hsd, hed] at h
              unfold applyUpdate at h
              injection h with h1 h2
              injection h2 with h2'
              exact ⟨h1.symm, h2'.symm⟩
            | some e =>
              simp only [hsd, hed] at h
              cases hps : parseDate parse s with
              | none =>
                simp only [hps] at h
                injection h with h1 h2
                exact Except.noConfusion h2
              | some sd =>
                simp only [hps] at h
                cases hpe : parseDate parse e with
                | none =>
                  simp only [hpe] at h
                  injection h with h1 h2
                  exact Except.noConfusion h2
                | some ed =>
                  simp only [hpe] at h
                  by_cases hle : ed ≤ sd
                  · rw [if_pos hle] at h
                    injection h with h1 h2
                    exact Except.noConfusion h2
                  · rw [if_neg hle] at h
                    unfold applyUpdate at h
                    injection h with h1 h2
                    injection h2 with h2'
                    exact ⟨h1.symm, h2'.symm⟩
      · rw [if_neg hv] at h
        injection h with h1 h2
        exact Except.noConfusion h2
    · rw [if_neg ht] at h
      injection h with h1 h2
      exact Except.noConfusion h2
  obtain ⟨existing, hf, hdb, hr⟩ := key
  subst hdb
  subst hr
  exact update_success_shape u id db existing hf

/-- Witness for C4: a message-only update of `db1`. -/
theorem update_frame_witness :
    ∃ e0, db1.announcements.find? (fun a => a.aid = oidA) = some e0 ∧
      mergeUpdate updMsg ann1 = mergeUpdate updMsg e0 ∧
      (mergeUpdate updMsg ann1).aid = e0.aid ∧
      (mergeUpdate updMsg ann1).created_by = e0.created_by ∧
      (mergeUpdate updMsg ann1).created_at = e0.created_at ∧
      (updMsg.message = none → (mergeUpdate updMsg ann1).message = e0.message) ∧
      (updMsg.start_date = none →
        (mergeUpdate updMsg ann1).start_date = e0.start_date) ∧
      (updMsg.expiration_date = none →
        (mergeUpdate updMsg ann1).expiration_date = e0.expiration_date) ∧
      (∀ m, updMsg.message = some m → (mergeUpdate updMsg ann1).message = m) ∧
      (∀ s, updMsg.start_date = some s →
        (mergeUpdate updMsg ann1).start_date = some s) ∧
      (∀ e, updMsg.expiration_date = some e →
        (mergeUpdate updMsg ann1).expiration_date = e) ∧
      (DB.mk [mergeUpdate updMsg ann1] ["t1"]).teachers = db1.teachers ∧
      (DB.mk [mergeUpdate updMsg ann1] ["t1"]).announcements =
        updateFirst oidA (mergeUpdate updMsg) db1.announcements ∧
      (DB.mk [mergeUpdate updMsg ann1] ["t1"]).announcements.length =
        db1.announcements.length ∧
      (∀ b ∈ db1.announcements, b.aid ≠ oidA →
        b ∈ (DB.mk [mergeUpdate updMsg ann1] ["t1"]).announcements) :=
  update_frame toyParse oidA "t1" updMsg db1
    (DB.mk [mergeUpdate updMsg ann1] ["t1"]) (mergeUpdate updMsg ann1)
    (by decide)

/-- C5 counterexample: the claim as stated fails when the caller is no
teacher: an update with a malformed id then fails Unauthorized, not
InvalidInput. -/
theorem update_malformed_id_claim_cex :
    isValidObjectId "bad" = false ∧
    (update_announcement toyParse "bad" updNone "ghost" db1).2 =
      Except.error ApiError.unauthorized ∧
    (update_announcement toyParse "bad" updNone "ghost" db1).2 ≠
      Except.error (ApiError.invalidInput "Invalid announcement ID") := by decide

/-- C5 (amended): for an update call BY AN EXISTING TEACHER whose
`announcement_id` is not a well-formed ObjectId string, the call fails
with InvalidInput before any announcement lookup: the outcome is the
same for every possible announcements collection, which is returned
unchanged. -/
theorem update_malformed_id (parse : String → Option Int)
    (id username : String) (u : AnnouncementUpdate) (db : DB)
    (ht : db.teachers.contains username = true)
    (hv : isValidObjectId id = false) :
    ∀ anns, update_announcement parse id u username
        { db with announcements := anns } =
      ({ db with announcements := anns },
       Except.error (ApiError.invalidInput "Invalid announcement ID")) := by
  intro anns
  have ht2 : ({ db with announcements := anns } : DB).teachers.contains
      username = true := ht
  unfold update_announcement
  rw [if_pos ht2]
  rw [if_neg (show ¬ isValidObjectId id = true by
    rw [hv]; exact Bool.false_ne_true)]

/-- Witness for C5 (amended): teacher `"t1"`, malformed id `"bad"`,
arbitrary concrete collection. -/
theorem update_malformed_id_witness :
    update_announcement toyParse "bad" updNone "t1"
        { db1 with announcements := [ann2] } =
      ({ db1 with announcements := [ann2] },
       Except.error (ApiError.invalidInput "Invalid announcement ID")) :=
  update_malformed_id toyParse "bad" "t1" updNone db1
    (by decide) (by decide) [ann2]

/-- C8: for a delete by an existing teacher with a well-formed id: when
no record matches, the call fails NotFound with the store unchanged;
when a record matches, exactly that first matching record is removed
and a confirmation message is returned. -/
theorem delete_cases (id username : String) (db : DB)
    (ht : db.teachers.contains username = true)
    (hv : isValidObjectId id = true) :
    ((∀ a ∈ db.announcements, a.aid ≠ id) →
      delete_announcement id username db =
        (db, Except.error ApiError.notFound)) ∧
    (∀ l1 x l2, db.announcements = l1 ++ x :: l2 → x.aid = id →
      (∀ b ∈ l1, b.aid ≠ id) →
      delete_announcement id username db =
        ({ db with announcements := l1 ++ l2 },
         Except.ok "Announcement deleted successfully")) := by
  constructor
  · intro hnone
    unfold delete_announcement
    rw [if_pos ht, if_pos hv,
      (deleteFirst_eq_none id db.announcements).mpr hnone]
  · intro l1 x l2 hsplit hx h1
    unfold delete_announcement
    rw [if_pos ht, if_pos hv, hsplit, deleteFirst_append id l1 x l2 h1 hx]

/-- Witness for C8: deleting the absent `oidC` from `db1` is NotFound;
deleting `ann2` from `db2` removes exactly it. -/
theorem delete_cases_witness :
    delete_announcement oidC "t1" db1 =
      (db1, Except.error ApiError.notFound) ∧
    delete_announcement oidB "t1" db2 =
      ({ db2 with announcements := [ann1] },
       Except.ok "Announcement deleted successfully") := by
  constructor
  · exact (delete_cases oidC "t1" db1 (by decide) (by decide)).1 (by decide)
  · exact (delete_cases oidB "t1" db2 (by decide) (by decide)).2
      [ann1] ann2 [] (by decide) (by decide) (by decide)

end Announcements
